import Mathlib

/-!
Verification of the GMST (global-mean surface temperature) pipeline of the
`cmip6-temperature-demo` notebook (`00s_solution_SSP_exercise.ipynb`).

The pipeline has three stages, embedded shallowly below:

* Loader/Normalizer (the loader loop): rename the `latitude`/`longitude`
  dimensions to `lat`/`lon` when both long names are present, restrict the
  time axis to an inclusive window, drop every coordinate other than
  `lat`, `lon`, `time`.
* Spatial Aggregator (`cos_lat_2d`, `gmst`): area-weighted mean of the
  temperature field over latitude/longitude with weight `cos(lat in
  radians)` broadcast across longitude; the sums are xarray sums, which
  skip missing values (`skipna=True` is the xarray default for floats).
* Scenario Splicer (the `gmst_ssp_dict` loop): for each run whose key
  contains `"ssp"`, scan all runs for one whose key contains both the
  model-name token (`name.split(".")[2]`) and `"historical"`; the last
  match wins, zero matches silently skip the run, and the spliced series
  is `xr.concat([hist, fut], dim="time")`, i.e. concatenation along time.
  Afterwards a monthly climatology (group by calendar month, mean) is
  subtracted.

Python strings are modelled as `List Char` (a key is `String.data` of the
literal), dictionaries as association lists in iteration order, missing
floating-point values (NaN) as `Option` with `none` for NaN, and the
numeric fields over `ℝ` (for the cosine weights) or `ℚ` (for the purely
rational series transforms).
-/

namespace CMIP6

/-! ### Time series

A global-mean series is a 1-D time series: a list of (time step, value)
pairs in time order.  `xr.concat([hist, fut], dim="time")` on such series
is plain list concatenation along the time axis. -/

/-- A 1-D time series: (time step, value) pairs in axis order. -/
abbrev Series : Type := List (Nat × ℚ)

/-- `xr.concat([hist, fut], dim="time")`: concatenation along the time
axis, no deduplication, no gap filling, values untouched. -/
def concatTime (hist fut : Series) : Series := hist ++ fut

/-- The time axis of a series. -/
def timesOf (s : Series) : List Nat := s.map Prod.fst

/-! ### Seasonal-cycle removal

`gmst_climatology = gmst.groupby("time.month").mean("time")` and
`gmst_anomalies = gmst.groupby("time.month") - gmst_climatology`.
Time steps are months since the series start, so the calendar month of
step `t` is `t % 12`; grouping by `time.month` groups by this value. -/

/-- `gmst.groupby("time.month").mean("time")`: the mean of all values
whose time step falls in calendar month `m`. -/
def climatology (s : Series) (m : Nat) : ℚ :=
  ((s.filter (fun p => p.1 % 12 == m)).map Prod.snd).sum /
    ((s.filter (fun p => p.1 % 12 == m)).length : ℚ)

/-- `gmst.groupby("time.month") - gmst_climatology`: subtract from each
value the climatology of its calendar month. -/
def monthlyAnomalies (s : Series) : Series :=
  s.map (fun p => (p.1, p.2 - climatology s (p.1 % 12)))

/-! ### Loader/Normalizer

Name-level embedding of the loader loop

```
if ("longitude" in ds.dims) and ("latitude" in ds.dims):
    ds = ds.rename({"longitude": "lon", "latitude": "lat"})
ds = xr.decode_cf(ds)
ds = ds.sel(time=time_slice)
for coord in ds.coords:
    if coord not in ["lat", "lon", "time"]:
        ds = ds.drop(coord)
```

A dataset is modelled by its dimension names, coordinate names, data
variable names, and time-axis values (years; `xr.decode_cf` only changes
the representation of the time values, which the model already holds
decoded, so it is the identity here).  `ds.sel(time=slice("1850","2100"))`
is label-based and inclusive at both ends.  `ds.drop(coord)` removes the
coordinate variable but leaves dimension names untouched, and the loop
iterates over the coordinate names of the original dataset. -/

structure XDataset where
  dims : List String
  coords : List String
  dataVars : List String
  timeAxis : List Nat
deriving DecidableEq

/-- The renaming `{"longitude": "lon", "latitude": "lat"}` applied to one
name. -/
def renameDim (n : String) : String :=
  if n = "longitude" then "lon" else if n = "latitude" then "lat" else n

/-- `ds.rename(...)` guarded by
`("longitude" in ds.dims) and ("latitude" in ds.dims)`.  `rename` renames
dimensions and variables alike. -/
def renameStep (ds : XDataset) : XDataset :=
  if ("longitude" ∈ ds.dims ∧ "latitude" ∈ ds.dims) then
    { dims := ds.dims.map renameDim
      coords := ds.coords.map renameDim
      dataVars := ds.dataVars.map renameDim
      timeAxis := ds.timeAxis }
  else ds

/-- `ds.sel(time=time_slice)` with `time_slice = slice("1850","2100")`:
keep the time steps inside the inclusive window. -/
def selTime (t0 t1 : Nat) (ds : XDataset) : XDataset :=
  { ds with timeAxis := ds.timeAxis.filter (fun t => t0 ≤ t && t ≤ t1) }

/-- The coordinate-dropping loop: every coordinate not named `lat`, `lon`
or `time` is dropped. -/
def dropNonCanonical (ds : XDataset) : XDataset :=
  { ds with coords := ds.coords.filter (fun c => ["lat", "lon", "time"].contains c) }

/-- The whole per-dataset normalization of the loader loop. -/
def loader (t0 t1 : Nat) (ds : XDataset) : XDataset :=
  dropNonCanonical (selTime t0 t1 (renameStep ds))

/-- The `{lat, lon}` spatial naming convention: both short names are
dimension coordinates. -/
def usesShortNames (ds : XDataset) : Prop :=
  "lat" ∈ ds.dims ∧ "lon" ∈ ds.dims ∧ "lat" ∈ ds.coords ∧ "lon" ∈ ds.coords

/-- The `{latitude, longitude}` spatial naming convention: both long names
are dimension coordinates. -/
def usesLongNames (ds : XDataset) : Prop :=
  "latitude" ∈ ds.dims ∧ "longitude" ∈ ds.dims ∧
    "latitude" ∈ ds.coords ∧ "longitude" ∈ ds.coords

/-! ### Failure behaviour of the loader stage

The loader loop performs no schema validation and cannot fail; there is no
`UnsupportedSchema` (or any other named) error anywhere in the notebook.
When the normalized dataset lacks the canonical coordinates or the `tas`
variable, the first failure is a Python `KeyError` raised by the indexing
in the aggregation lines, in evaluation order `ds["lat"]`, `ds["lon"]`,
`ds["tas"]`. -/

inductive PyError where
  | keyError (key : String)
deriving DecidableEq

/-- `ds[key]`: succeeds when `key` names a data variable or a coordinate,
otherwise raises `KeyError(key)`. -/
def getItem (ds : XDataset) (key : String) : Except PyError Unit :=
  if key ∈ ds.dataVars ∨ key ∈ ds.coords then .ok () else .error (.keyError key)

/-- The variable accesses of the aggregation lines
`cos_lat_2d = np.cos(np.deg2rad(ds["lat"])) * xr.ones_like(ds["lon"])` and
`gmst = (ds["tas"] * cos_lat_2d).sum(...) / ...`, in evaluation order. -/
def gmstAccess (ds : XDataset) : Except PyError Unit := do
  _ ← getItem ds "lat"
  _ ← getItem ds "lon"
  getItem ds "tas"

/-! ### Spatial Aggregator

```
cos_lat_2d = np.cos(np.deg2rad(ds["lat"])) * xr.ones_like(ds["lon"])
gmst = (
    (ds["tas"] * cos_lat_2d).sum(dim=["lat","lon"]) /
    cos_lat_2d.sum(dim=["lat","lon"])
)
```

A normalized field is a time × lat × lon array of floats; a missing value
(NaN) is `none`.  Multiplying a NaN cell by its weight gives NaN, and the
xarray `.sum` defaults to `skipna=True` for float data, so NaN products
contribute nothing to the sum and an all-NaN slice sums to `0.0`.  The
weights contain no NaN, hence the quotient is a well-defined float unless
the weight sum is zero; the non-finite float produced in that case is
modelled as `none`. -/

structure GriddedField where
  nt : ℕ
  nlat : ℕ
  nlon : ℕ
  /-- latitude coordinate values, in degrees -/
  lat : Fin nlat → ℝ
  /-- the temperature field; `none` is a missing value (NaN) -/
  tas : Fin nt → Fin nlat → Fin nlon → Option ℝ

/-- `np.deg2rad`: degrees to radians. -/
noncomputable def deg2rad (x : ℝ) : ℝ := x * (Real.pi / 180)

/-- `cos_lat_2d = np.cos(np.deg2rad(ds["lat"])) * xr.ones_like(ds["lon"])`:
the per-latitude cosine weight broadcast across longitude into a 2-D grid
(constant in the longitude index). -/
noncomputable def cos_lat_2d (f : GriddedField) (i : Fin f.nlat) (_j : Fin f.nlon) : ℝ :=
  Real.cos (deg2rad (f.lat i))

/-- One summand of `(ds["tas"] * cos_lat_2d).sum(...)`: a NaN cell times
its weight is NaN and is then skipped by the sum (`skipna=True` default),
i.e. contributes `0`. -/
def skipnaTerm (w : ℝ) : Option ℝ → ℝ
  | none => 0
  | some v => v * w

/-- `(ds["tas"] * cos_lat_2d).sum(dim=["lat","lon"])` at one time step. -/
noncomputable def gmstNum (f : GriddedField) (t : Fin f.nt) : ℝ :=
  ∑ i : Fin f.nlat, ∑ j : Fin f.nlon, skipnaTerm (cos_lat_2d f i j) (f.tas t i j)

/-- `cos_lat_2d.sum(dim=["lat","lon"])`. -/
noncomputable def gmstDen (f : GriddedField) : ℝ :=
  ∑ i : Fin f.nlat, ∑ j : Fin f.nlon, cos_lat_2d f i j

/-- The aggregated global-mean value at one time step. -/
noncomputable def gmst (f : GriddedField) (t : Fin f.nt) : Option ℝ :=
  if gmstDen f = 0 then none else some (gmstNum f t / gmstDen f)

/-- The weight as the spec words it: `w(lat) = cos(lat in radians)`,
stated for comparison with `cos_lat_2d`. -/
noncomputable def specWeight (latDeg : ℝ) : ℝ := Real.cos (deg2rad latDeg)

/-- The 2-D weight grid as the spec words it: the per-latitude weight
broadcast over longitude into a grid matching the spatial shape. -/
noncomputable def specWeightGrid (f : GriddedField) (i : Fin f.nlat) (_j : Fin f.nlon) : ℝ :=
  specWeight (f.lat i)

/-- The aggregator as the spec words it, on a fully-defined field `v`: for
each time step, `sum(field * weight) / sum(weight)` over the spatial
dimensions. -/
noncomputable def specWeightedMean (f : GriddedField)
    (v : Fin f.nt → Fin f.nlat → Fin f.nlon → ℝ) (t : Fin f.nt) : ℝ :=
  (∑ i : Fin f.nlat, ∑ j : Fin f.nlon, v t i j * specWeightGrid f i j) /
    (∑ i : Fin f.nlat, ∑ j : Fin f.nlon, specWeightGrid f i j)

/-! ### Scenario Splicer

```
gmst_ssp_dict = {}
for name, gmst in gmst_dict.items():
    if "ssp" not in name: continue
    add_hist_gmst = None
    for hist_name, hist_gmst in gmst_dict.items():
        model_name = name.split(".")[2]
        if (model_name in hist_name) and ("historical" in hist_name):
            add_hist_gmst = hist_gmst
    if add_hist_gmst is not None:
        gmst_ssp = xr.concat([add_hist_gmst, gmst], dim="time")
        gmst_ssp_dict[name] = gmst_ssp
```

Python strings are `List Char`, dictionaries association lists in
iteration order.  `model_name in hist_name` is substring containment and
`name.split(".")[2]` indexes the list of dot-separated fields, raising
`IndexError` when it has fewer than three fields; the exception aborts the
whole loop, modelled with `Except`. -/

abbrev PyStr : Type := List Char

/-- Python `str.split(".")`: split into the (possibly empty) fields
between the dots; the empty string yields one empty field. -/
def splitOnDot : PyStr → List PyStr
  | [] => [[]]
  | c :: rest =>
    if c = '.' then [] :: splitOnDot rest
    else
      match splitOnDot rest with
      | [] => [[c]]
      | g :: gs => (c :: g) :: gs

/-- Whether `pat` is an initial segment of `s`. -/
def isPrefList : PyStr → PyStr → Bool
  | [], _ => true
  | _ :: _, [] => false
  | a :: xs, b :: ys => a = b && isPrefList xs ys

/-- Python `pat in s` on strings: substring containment. -/
def hasSubstr (pat : PyStr) : PyStr → Bool
  | [] => pat.isEmpty
  | c :: rest => isPrefList pat (c :: rest) || hasSubstr pat rest

/-- `model_name = name.split(".")[2]`, as a partial lookup: `none` is the
`IndexError` case. -/
def modelNameOf (name : PyStr) : Option PyStr := (splitOnDot name).get? 2

abbrev SeriesDict : Type := List (PyStr × Series)

/-- The inner loop over `gmst_dict.items()`, carrying `add_hist_gmst` as
the accumulator; each iteration recomputes `name.split(".")[2]` and a
failing index aborts with `IndexError`. -/
def findHist : SeriesDict → PyStr → Option Series → Except String (Option Series)
  | [], _, acc => .ok acc
  | (histName, histGmst) :: rest, name, acc =>
    match modelNameOf name with
    | none => .error "IndexError"
    | some modelName =>
      if hasSubstr modelName histName && hasSubstr "historical".data histName then
        findHist rest name (some histGmst)
      else
        findHist rest name acc

/-- The outer loop: `entries` is the iteration front of `gmst_dict`,
`dict` the whole dictionary scanned by the inner loop.  Runs without
`"ssp"` in their key are skipped; a run with no matching historical series
is silently dropped; an uncaught `IndexError` aborts everything. -/
def splicer (entries dict : SeriesDict) : Except String SeriesDict :=
  match entries with
  | [] => .ok []
  | (name, s) :: rest =>
    if hasSubstr "ssp".data name then
      match findHist dict name none with
      | .error e => .error e
      | .ok none => splicer rest dict
      | .ok (some h) =>
        match splicer rest dict with
        | .error e => .error e
        | .ok out => .ok ((name, concatTime h s) :: out)
    else splicer rest dict

/-- The historical-labeled entries of the dictionary whose key contains
the model-name token, in iteration order. -/
def histMatches (dict : SeriesDict) (modelName : PyStr) : SeriesDict :=
  dict.filter (fun e => hasSubstr modelName e.1 && hasSubstr "historical".data e.1)

/-- The matching rule as the spec states it: among the historical-labeled
runs containing the model token, the last one encountered in iteration
order; `none` when there is no match. -/
def lastMatch (dict : SeriesDict) (modelName : PyStr) : Option Series :=
  ((histMatches dict modelName).getLast?).map Prod.snd

/-- The per-run description of the splicer as the spec states it: a run is
processed only when its key contains `"ssp"`; the model token is the third
dot-separated field; zero historical matches silently exclude the run;
otherwise the last match is concatenated before the future series. -/
def spliceEntrySpec (dict : SeriesDict) (e : PyStr × Series) : Option (PyStr × Series) :=
  if hasSubstr "ssp".data e.1 then
    match modelNameOf e.1 with
    | none => none
    | some m =>
      match lastMatch dict m with
      | none => none
      | some h => some (e.1, concatTime h e.2)
  else none

/-- A concrete dictionary: one future run matched by two historical runs
(`mA` is a substring of both `a.b.mA.historical` and
`a.b.mAx.historical`), and one future run with no historical match. -/
def exDict3 : SeriesDict :=
  [("a.b.mA.ssp1".data, [(2, 10)]),
   ("a.b.mA.historical".data, [(0, 1)]),
   ("a.b.mAx.historical".data, [(0, 2)]),
   ("a.b.mB.ssp2".data, [(2, 20)])]

/-! ### Theorems -/

theorem timesOf_append (a b : Series) :
    timesOf (concatTime a b) = timesOf a ++ timesOf b := by
  simp [timesOf, concatTime]

/-- C2: splicing a historical series with time axis t0..t1 and a future
series with time axis t1+1..t2 yields a series whose time axis is exactly
t0..t2 with no duplicated timestamps, and whose (time, value) pairs are
exactly those of the two sources (no deduplication, gap-filling, or value
modification). -/
theorem splice_time_axis_exact (H F : Series) (t0 t1 t2 : Nat)
    (h01 : t0 ≤ t1) (h12 : t1 ≤ t2)
    (hH : timesOf H = List.range' t0 (t1 + 1 - t0))
    (hF : timesOf F = List.range' (t1 + 1) (t2 - t1)) :
    timesOf (concatTime H F) = List.range' t0 (t2 + 1 - t0) ∧
      (timesOf (concatTime H F)).Nodup ∧
      (∀ p : Nat × ℚ, p ∈ concatTime H F ↔ p ∈ H ∨ p ∈ F) := by
  have hax : timesOf (concatTime H F) = List.range' t0 (t2 + 1 - t0) := by
    rw [timesOf_append, hH, hF]
    have happ := List.range'_append t0 (t1 + 1 - t0) (t2 - t1) 1
    have hstart : t0 + 1 * (t1 + 1 - t0) = t1 + 1 := by omega
    rw [hstart] at happ
    have hlen : t2 - t1 + (t1 + 1 - t0) = t2 + 1 - t0 := by omega
    rw [hlen] at happ
    exact happ
  refine ⟨hax, ?_, ?_⟩
  · rw [hax]; exact List.nodup_range' _ _
  · intro p
    simp [concatTime]

theorem splice_time_axis_exact_witness :
    timesOf (concatTime [(0, (3 : ℚ)), (1, 4)] [(2, 5)]) = List.range' 0 3 ∧
      (timesOf (concatTime [(0, (3 : ℚ)), (1, 4)] [(2, 5)])).Nodup ∧
      (∀ p : Nat × ℚ, p ∈ concatTime [(0, (3 : ℚ)), (1, 4)] [(2, 5)] ↔
        p ∈ ([(0, (3 : ℚ)), (1, 4)] : Series) ∨ p ∈ ([(2, 5)] : Series)) :=
  splice_time_axis_exact [(0, 3), (1, 4)] [(2, 5)] 0 1 2
    (by decide) (by decide) (by decide) (by decide)

/-- C8: on a series whose value depends only on the calendar month
(perfectly periodic 12-month signal), subtracting the monthly climatology
yields an anomaly series that is zero at every time step. -/
theorem monthlyAnomalies_zero_of_periodic (s : Series) (f : Nat → ℚ)
    (hper : ∀ p ∈ s, p.2 = f (p.1 % 12)) :
    ∀ q ∈ monthlyAnomalies s, q.2 = 0 := by
  intro q hq
  obtain ⟨⟨a, b⟩, hmem, rfl⟩ := List.mem_map.1 hq
  have hclim : climatology s (a % 12) = f (a % 12) := by
    have hpg : (a, b) ∈ s.filter (fun p => p.1 % 12 == a % 12) :=
      List.mem_filter.2 ⟨hmem, by simp⟩
    have hall : ∀ x ∈ (s.filter (fun p => p.1 % 12 == a % 12)).map Prod.snd,
        x = f (a % 12) := by
      intro x hx
      obtain ⟨⟨c, d⟩, hcd, rfl⟩ := List.mem_map.1 hx
      have hc := List.mem_filter.1 hcd
      have hcm : c % 12 = a % 12 := by simpa using hc.2
      rw [hper _ hc.1, hcm]
    have hsum := List.sum_eq_card_nsmul _ _ hall
    have hne : (((s.filter (fun p => p.1 % 12 == a % 12)).length : ℕ) : ℚ) ≠ 0 := by
      have h0 : (s.filter (fun p => p.1 % 12 == a % 12)).length ≠ 0 := by
        intro h0
        rw [List.length_eq_zero] at h0
        rw [h0] at hpg
        exact absurd hpg (List.not_mem_nil _)
      exact_mod_cast h0
    rw [climatology, hsum]
    simp only [List.length_map, nsmul_eq_mul]
    exact mul_div_cancel_left₀ _ hne
  have hb : b = f (a % 12) := hper _ hmem
  simp [hb, hclim]

theorem monthlyAnomalies_zero_of_periodic_witness :
    (∀ p ∈ ([(0, 1), (1, 2), (12, 1), (13, 2)] : Series),
        p.2 = ((p.1 % 12 : ℕ) + 1 : ℚ)) ∧
      ∀ q ∈ monthlyAnomalies [(0, 1), (1, 2), (12, 1), (13, 2)], q.2 = 0 :=
  ⟨by
    intro p hp
    simp only [List.mem_cons, List.not_mem_nil, or_false] at hp
    rcases hp with rfl | rfl | rfl | rfl <;> norm_num,
   monthlyAnomalies_zero_of_periodic _ (fun m => (m : ℚ) + 1)
     (by
      intro p hp
      simp only [List.mem_cons, List.not_mem_nil, or_false] at hp
      rcases hp with rfl | rfl | rfl | rfl <;> norm_num)⟩

theorem renameStep_timeAxis (ds : XDataset) : (renameStep ds).timeAxis = ds.timeAxis := by
  rw [renameStep]
  split <;> rfl

theorem renameDim_eq_self (v : String) (h1 : v ≠ "longitude") (h2 : v ≠ "latitude") :
    renameDim v = v := by
  rw [renameDim, if_neg h1, if_neg h2]

theorem mem_map_renameDim (l : List String) (v : String)
    (h1 : v ≠ "lon") (h2 : v ≠ "lat") (h3 : v ≠ "longitude") (h4 : v ≠ "latitude") :
    v ∈ l.map renameDim ↔ v ∈ l := by
  constructor
  · intro h
    obtain ⟨w, hw, hwv⟩ := List.mem_map.1 h
    rw [renameDim] at hwv
    split at hwv
    · exact absurd hwv.symm h1
    · split at hwv
      · exact absurd hwv.symm h2
      · exact hwv ▸ hw
  · intro h
    exact List.mem_map.2 ⟨v, h, renameDim_eq_self v h3 h4⟩

theorem renameStep_dataVars_of_not_renamed (ds : XDataset) (v : String)
    (h1 : v ≠ "lon") (h2 : v ≠ "lat") (h3 : v ≠ "longitude") (h4 : v ≠ "latitude") :
    v ∈ (renameStep ds).dataVars ↔ v ∈ ds.dataVars := by
  rw [renameStep]
  split
  · exact mem_map_renameDim ds.dataVars v h1 h2 h3 h4
  · exact Iff.rfl

/-- C5: on a dataset using either spatial naming convention and carrying a
time coordinate, the loader output has exactly the coordinates `lat`,
`lon`, `time`, and its time axis is the original one restricted to the
inclusive window. -/
theorem loader_canonical_coords (ds : XDataset) (t0 t1 : Nat)
    (hconv : usesShortNames ds ∨ usesLongNames ds)
    (htime : "time" ∈ ds.coords) :
    (∀ c, c ∈ (loader t0 t1 ds).coords ↔ (c = "lat" ∨ c = "lon" ∨ c = "time")) ∧
      (loader t0 t1 ds).timeAxis =
        ds.timeAxis.filter (fun t => t0 ≤ t && t ≤ t1) := by
  constructor
  · intro c
    have hcoords : (loader t0 t1 ds).coords =
        (renameStep ds).coords.filter (fun c => ["lat", "lon", "time"].contains c) := rfl
    rw [hcoords]
    constructor
    · intro hc
      have h2 := (List.mem_filter.1 hc).2
      simpa using h2
    · intro hc
      apply List.mem_filter.2
      refine ⟨?_, by rcases hc with rfl | rfl | rfl <;> simp⟩
      by_cases hg : ("longitude" ∈ ds.dims ∧ "latitude" ∈ ds.dims)
      · have hrc : (renameStep ds).coords = ds.coords.map renameDim := by
          rw [renameStep, if_pos hg]
        rw [hrc]
        rcases hc with rfl | rfl | rfl
        · rcases hconv with hs | hl
          · exact List.mem_map.2 ⟨"lat", hs.2.2.1, rfl⟩
          · exact List.mem_map.2 ⟨"latitude", hl.2.2.1, rfl⟩
        · rcases hconv with hs | hl
          · exact List.mem_map.2 ⟨"lon", hs.2.2.2, rfl⟩
          · exact List.mem_map.2 ⟨"longitude", hl.2.2.2, rfl⟩
        · exact List.mem_map.2 ⟨"time", htime, rfl⟩
      · have hrc : (renameStep ds).coords = ds.coords := by
          rw [renameStep, if_neg hg]
        rw [hrc]
        rcases hconv with hs | hl
        · rcases hc with rfl | rfl | rfl
          · exact hs.2.2.1
          · exact hs.2.2.2
          · exact htime
        · exact absurd ⟨hl.2.1, hl.1⟩ hg
  · have hta : (loader t0 t1 ds).timeAxis =
        (renameStep ds).timeAxis.filter (fun t => t0 ≤ t && t ≤ t1) := rfl
    rw [hta, renameStep_timeAxis]

theorem loader_canonical_coords_witness :
    (∀ c, c ∈ (loader 1850 2100
        ⟨["latitude", "longitude", "time"], ["latitude", "longitude", "time", "height"],
          ["tas"], [1849, 1850, 2100, 2101]⟩).coords ↔
        (c = "lat" ∨ c = "lon" ∨ c = "time")) ∧
      (loader 1850 2100
        ⟨["latitude", "longitude", "time"], ["latitude", "longitude", "time", "height"],
          ["tas"], [1849, 1850, 2100, 2101]⟩).timeAxis =
        [1849, 1850, 2100, 2101].filter (fun t => 1850 ≤ t && t ≤ 2100) :=
  loader_canonical_coords _ 1850 2100
    (Or.inr (by constructor <;> simp [usesLongNames])) (by simp)

/-- C9: the rename is guarded by the conjunction
`("longitude" in ds.dims) and ("latitude" in ds.dims)`, so a dataset with
exactly one of the two long-form names keeps all its dimension names
unchanged and is not canonicalized to `lat`/`lon`. -/
theorem loader_no_rename_single_long_name (ds : XDataset) (t0 t1 : Nat)
    (h : ("latitude" ∈ ds.dims ∧ "longitude" ∉ ds.dims) ∨
      ("longitude" ∈ ds.dims ∧ "latitude" ∉ ds.dims)) :
    (loader t0 t1 ds).dims = ds.dims ∧
      ("latitude" ∈ ds.dims → "latitude" ∈ (loader t0 t1 ds).dims) ∧
      ("longitude" ∈ ds.dims → "longitude" ∈ (loader t0 t1 ds).dims) := by
  have hg : ¬ ("longitude" ∈ ds.dims ∧ "latitude" ∈ ds.dims) := by
    rcases h with ⟨_, hno⟩ | ⟨_, hno⟩
    · exact fun hc => hno hc.1
    · exact fun hc => hno hc.2
  have hdims : (loader t0 t1 ds).dims = ds.dims := by
    show (renameStep ds).dims = ds.dims
    rw [renameStep, if_neg hg]
  exact ⟨hdims, fun hmem => hdims ▸ hmem, fun hmem => hdims ▸ hmem⟩

theorem loader_no_rename_single_long_name_witness :
    (loader 1850 2100
        ⟨["latitude", "lon", "time"], ["latitude", "lon", "time"], ["tas"],
          [1900]⟩).dims = ["latitude", "lon", "time"] ∧
      ("latitude" ∈ ["latitude", "lon", "time"] →
        "latitude" ∈ (loader 1850 2100
          ⟨["latitude", "lon", "time"], ["latitude", "lon", "time"], ["tas"],
            [1900]⟩).dims) ∧
      ("longitude" ∈ ["latitude", "lon", "time"] →
        "longitude" ∈ (loader 1850 2100
          ⟨["latitude", "lon", "time"], ["latitude", "lon", "time"], ["tas"],
            [1900]⟩).dims) :=
  loader_no_rename_single_long_name _ 1850 2100 (Or.inl (by simp))

/-- C6 counterexample: on a dataset with neither naming convention and no
`tas` variable, the loader does NOT fail (it returns a normalized dataset;
no `UnsupportedSchema` error exists in the code) — the failure only
surfaces afterwards, in the aggregation step, as a `lat` key error. -/
theorem loader_unsupported_schema_counterexample :
    loader 1850 2100 ⟨["x", "y", "time"], ["x", "y", "time"], ["temp"], [1900]⟩ =
      ⟨["x", "y", "time"], ["time"], ["temp"], [1900]⟩ ∧
      gmstAccess (loader 1850 2100
        ⟨["x", "y", "time"], ["x", "y", "time"], ["temp"], [1900]⟩) =
        .error (.keyError "lat") := by
  constructor <;> rfl

/-- C6 amended: the loader always succeeds (it validates nothing); when
neither naming convention is present and no `lat` variable exists the
pipeline instead fails at the aggregation step with a `lat` key error, and
when the canonical coordinates are present but the temperature variable is
absent it fails there with a `tas` key error. -/
theorem loader_missing_schema_key_error (ds : XDataset) (t0 t1 : Nat) :
    (¬ ("longitude" ∈ ds.dims ∧ "latitude" ∈ ds.dims) → "lat" ∉ ds.coords →
      "lat" ∉ ds.dataVars →
      gmstAccess (loader t0 t1 ds) = .error (.keyError "lat")) ∧
    ("lat" ∈ ds.coords → "lon" ∈ ds.coords → "tas" ∉ ds.dataVars →
      gmstAccess (loader t0 t1 ds) = .error (.keyError "tas")) := by
  have hcoords : (loader t0 t1 ds).coords =
      (renameStep ds).coords.filter (fun c => ["lat", "lon", "time"].contains c) := rfl
  have hvars : (loader t0 t1 ds).dataVars = (renameStep ds).dataVars := rfl
  constructor
  · intro hg hlatc hlatv
    have h1 : "lat" ∉ (loader t0 t1 ds).coords := by
      rw [hcoords, renameStep, if_neg hg]
      exact fun hmem => hlatc (List.mem_filter.1 hmem).1
    have h2 : "lat" ∉ (loader t0 t1 ds).dataVars := by
      rw [hvars, renameStep, if_neg hg]
      exact hlatv
    rw [gmstAccess, getItem, if_neg (by tauto)]
    rfl
  · intro hlat hlon htas
    have hlat' : "lat" ∈ (renameStep ds).coords := by
      rw [renameStep]
      split
      · exact List.mem_map.2 ⟨"lat", hlat, rfl⟩
      · exact hlat
    have hlon' : "lon" ∈ (renameStep ds).coords := by
      rw [renameStep]
      split
      · exact List.mem_map.2 ⟨"lon", hlon, rfl⟩
      · exact hlon
    have h1 : "lat" ∈ (loader t0 t1 ds).coords := by
      rw [hcoords]
      exact List.mem_filter.2 ⟨hlat', by simp⟩
    have h2 : "lon" ∈ (loader t0 t1 ds).coords := by
      rw [hcoords]
      exact List.mem_filter.2 ⟨hlon', by simp⟩
    have h3 : "tas" ∉ (loader t0 t1 ds).dataVars := by
      rw [hvars]
      exact fun hmem =>
        htas ((renameStep_dataVars_of_not_renamed ds "tas" (by decide) (by decide)
          (by decide) (by decide)).1 hmem)
    have h4 : "tas" ∉ (loader t0 t1 ds).coords := by
      rw [hcoords]
      intro hmem
      have hin := (List.mem_filter.1 hmem).2
      simp at hin
    rw [gmstAccess, getItem, if_pos (Or.inr h1)]
    show (getItem (loader t0 t1 ds) "lon") >>= _ = _
    rw [getItem, if_pos (Or.inr h2)]
    show getItem (loader t0 t1 ds) "tas" = _
    rw [getItem, if_neg (by tauto)]

theorem loader_missing_schema_key_error_witness :
    gmstAccess (loader 1850 2100
        ⟨["x", "y", "time"], ["x", "y", "time"], ["temp"], [1900]⟩) =
        .error (.keyError "lat") ∧
      gmstAccess (loader 1850 2100
        ⟨["lat", "lon", "time"], ["lat", "lon", "time"], ["pr"], [1900]⟩) =
        .error (.keyError "tas") :=
  ⟨(loader_missing_schema_key_error
      ⟨["x", "y", "time"], ["x", "y", "time"], ["temp"], [1900]⟩ 1850 2100).1
      (by simp) (by simp) (by simp),
   (loader_missing_schema_key_error
      ⟨["lat", "lon", "time"], ["lat", "lon", "time"], ["pr"], [1900]⟩ 1850 2100).2
      (by simp) (by simp) (by simp)⟩

/-- C1: on a field with no missing values (and a nonzero weight sum, so
the float quotient is defined), the aggregator computes at each time step
exactly the weighted mean `sum(field * weight) / sum(weight)` of the spec,
with the cosine-latitude weight broadcast over longitude. -/
theorem gmst_eq_specWeightedMean (f : GriddedField) (t : Fin f.nt)
    (hall : ∀ i j, (f.tas t i j).isSome) (hden : gmstDen f ≠ 0) :
    gmst f t = some (specWeightedMean f (fun s i j => (f.tas s i j).getD 0) t) := by
  rw [gmst, if_neg hden]
  congr 1
  rw [specWeightedMean, gmstNum] at *
  have hgrid : ∀ i j, specWeightGrid f i j = cos_lat_2d f i j := fun i j => rfl
  have hnum : (∑ i : Fin f.nlat, ∑ j : Fin f.nlon,
      skipnaTerm (cos_lat_2d f i j) (f.tas t i j)) =
      ∑ i : Fin f.nlat, ∑ j : Fin f.nlon, (f.tas t i j).getD 0 * specWeightGrid f i j := by
    refine Finset.sum_congr rfl fun i _ => Finset.sum_congr rfl fun j _ => ?_
    obtain ⟨v, hv⟩ := Option.isSome_iff_exists.1 (hall i j)
    rw [hv, hgrid]
    rfl
  rw [hnum, gmstDen]
  rfl

theorem gmst_eq_specWeightedMean_witness :
    gmst ⟨1, 1, 1, fun _ => 0, fun _ _ _ => some 3⟩ 0 =
      some (specWeightedMean ⟨1, 1, 1, fun _ => 0, fun _ _ _ => some 3⟩
        (fun _ _ _ => ((some (3 : ℝ)).getD 0)) 0) :=
  gmst_eq_specWeightedMean ⟨1, 1, 1, fun _ => 0, fun _ _ _ => some 3⟩ 0
    (fun _ _ => rfl)
    (by simp [gmstDen, cos_lat_2d, deg2rad])

/-- C4: on a spatially uniform field (value `v` at every cell of a time
step) with nonzero weight sum, the aggregator returns `v` at that time
step, whatever the number and spacing of the grid points. -/
theorem gmst_constant_field (f : GriddedField) (t : Fin f.nt) (v : ℝ)
    (hconst : ∀ i j, f.tas t i j = some v) (hden : gmstDen f ≠ 0) :
    gmst f t = some v := by
  rw [gmst, if_neg hden]
  congr 1
  have hnum : gmstNum f t = v * gmstDen f := by
    rw [gmstNum, gmstDen, Finset.mul_sum]
    refine Finset.sum_congr rfl fun i _ => ?_
    rw [Finset.mul_sum]
    refine Finset.sum_congr rfl fun j _ => ?_
    rw [hconst i j]
    show v * cos_lat_2d f i j = v * cos_lat_2d f i j
    rfl
  rw [hnum, mul_div_assoc, div_self hden, mul_one]

theorem gmst_constant_field_witness :
    gmst ⟨1, 1, 2, fun _ => 0, fun _ _ _ => some 5⟩ 0 = some 5 :=
  gmst_constant_field ⟨1, 1, 2, fun _ => 0, fun _ _ _ => some 5⟩ 0 5
    (fun _ _ => rfl)
    (by simp [gmstDen, cos_lat_2d, deg2rad])

/-- C7 counterexample: a single-cell field whose one time step is missing
everywhere, yet the aggregator output there is the defined value `0`, not
an undefined (NaN) result: the xarray sums skip NaN, so the numerator of
the quotient is `0.0` while the denominator is the full weight sum. -/
theorem gmst_all_missing_counterexample :
    GriddedField.tas ⟨1, 1, 1, fun _ => 0, fun _ _ _ => none⟩ 0 0 0 = none ∧
      gmst ⟨1, 1, 1, fun _ => 0, fun _ _ _ => none⟩ 0 = some 0 := by
  refine ⟨rfl, ?_⟩
  have hden : gmstDen ⟨1, 1, 1, fun _ => 0, fun _ _ _ => none⟩ ≠ 0 := by
    simp [gmstDen, cos_lat_2d, deg2rad]
  rw [gmst, if_neg hden]
  have hnum : gmstNum ⟨1, 1, 1, fun _ => 0, fun _ _ _ => none⟩ 0 = 0 := by
    simp [gmstNum, skipnaTerm]
  rw [hnum, zero_div]

/-- C7 amended: at a time step whose values are all missing, the skipna
sums make the numerator `0`, so (for a nonzero weight sum) the aggregator
returns the defined value `0` rather than propagating the missing value. -/
theorem gmst_all_missing_eq_zero (f : GriddedField) (t : Fin f.nt)
    (hmiss : ∀ i j, f.tas t i j = none) (hden : gmstDen f ≠ 0) :
    gmst f t = some 0 := by
  rw [gmst, if_neg hden]
  have hnum : gmstNum f t = 0 := by
    rw [gmstNum]
    refine Finset.sum_eq_zero fun i _ => Finset.sum_eq_zero fun j _ => ?_
    rw [hmiss i j]
    rfl
  rw [hnum, zero_div]

theorem gmst_all_missing_eq_zero_witness :
    gmst ⟨1, 2, 1, fun _ => 0, fun _ _ _ => none⟩ 0 = some 0 :=
  gmst_all_missing_eq_zero ⟨1, 2, 1, fun _ => 0, fun _ _ _ => none⟩ 0
    (fun _ _ => rfl)
    (by simp [gmstDen, cos_lat_2d, deg2rad])

theorem getLast?_cons_eq_or {α : Type} (x : α) (l : List α) :
    (x :: l).getLast? = l.getLast?.or (some x) := by
  cases l with
  | nil => rfl
  | cons y ys =>
    rw [List.getLast?_cons_cons]
    cases h : (y :: ys).getLast? with
    | none => simp [List.getLast?_cons] at h
    | some a => rfl

theorem lastMatch_cons (e : PyStr × Series) (rest : SeriesDict) (m : PyStr) :
    lastMatch (e :: rest) m =
      if hasSubstr m e.1 && hasSubstr "historical".data e.1 then
        (lastMatch rest m).or (some e.2)
      else lastMatch rest m := by
  rw [lastMatch, histMatches, List.filter_cons]
  split
  · rw [getLast?_cons_eq_or]
    cases h : (List.filter (fun e => hasSubstr m e.1 && hasSubstr "historical".data e.1) rest).getLast? with
    | none => simp [lastMatch, histMatches, h]
    | some a => simp [lastMatch, histMatches, h]
  · rfl

theorem findHist_eq_lastMatch (dict : SeriesDict) (name m : PyStr) (acc : Option Series)
    (hm : modelNameOf name = some m) :
    findHist dict name acc = .ok ((lastMatch dict m).or acc) := by
  induction dict generalizing acc with
  | nil => rfl
  | cons e rest ih =>
    obtain ⟨hn, hs⟩ := e
    simp only [findHist, hm]
    have hlm := lastMatch_cons (hn, hs) rest m
    dsimp only at hlm
    by_cases hp : (hasSubstr m hn && hasSubstr "historical".data hn) = true
    · rw [if_pos hp, ih]
      rw [hlm, if_pos hp]
      cases lastMatch rest m <;> rfl
    · rw [if_neg hp, ih]
      rw [hlm, if_neg hp]

theorem splicer_eq_filterMap (entries dict : SeriesDict)
    (hwf : ∀ e ∈ entries, hasSubstr "ssp".data e.1 = true → 2 < (splitOnDot e.1).length) :
    splicer entries dict = .ok (entries.filterMap (spliceEntrySpec dict)) := by
  induction entries with
  | nil => rfl
  | cons e rest ih =>
    obtain ⟨name, s⟩ := e
    have ihr := ih (fun x hx hssp => hwf x (List.mem_cons_of_mem _ hx) hssp)
    rw [splicer, List.filterMap_cons]
    by_cases hssp : hasSubstr "ssp".data name = true
    · have hlen := hwf (name, s) (List.mem_cons_self _ _) hssp
      have hm : modelNameOf name = some ((splitOnDot name).get ⟨2, hlen⟩) :=
        List.get?_eq_get hlen
      rw [if_pos hssp, findHist_eq_lastMatch dict name _ none hm]
      have hspec : spliceEntrySpec dict (name, s) =
          match lastMatch dict ((splitOnDot name).get ⟨2, hlen⟩) with
          | none => none
          | some h => some (name, concatTime h s) := by
        rw [spliceEntrySpec, if_pos hssp]
        rw [hm]
      cases hl : lastMatch dict ((splitOnDot name).get ⟨2, hlen⟩) with
      | none =>
        rw [hl] at hspec
        rw [hspec, ihr]
        rfl
      | some h =>
        rw [hl] at hspec
        rw [hspec, ihr]
        rfl
    · rw [if_neg hssp]
      have hspec : spliceEntrySpec dict (name, s) = none := by
        rw [spliceEntrySpec, if_neg hssp]
      rw [hspec, ihr]

/-- C3: when every `"ssp"` key has at least three dot-separated fields,
the splicer succeeds and maps each future-scenario run (key containing
`"ssp"`) by the rule the spec states: match historical-labeled runs on
containment of the third dot-separated field of the future key, silently
exclude the run on zero matches, and use the last match in iteration
order otherwise. -/
theorem splicer_last_match_wins (dict : SeriesDict)
    (hwf : ∀ e ∈ dict, hasSubstr "ssp".data e.1 = true → 2 < (splitOnDot e.1).length) :
    splicer dict dict = .ok (dict.filterMap (spliceEntrySpec dict)) :=
  splicer_eq_filterMap dict dict hwf

theorem splicer_last_match_wins_witness :
    splicer exDict3 exDict3 =
      .ok [("a.b.mA.ssp1".data, concatTime [(0, 2)] [(2, 10)])] :=
  (splicer_last_match_wins exDict3 (by decide)).trans (congrArg Except.ok (by decide))

/-- C10: under the precondition that every key containing `"ssp"` splits
on `"."` into at least three fields, the `IndexError` branch of the
model-name extraction is unreachable and the splicer succeeds; and for a
key with fewer fields the splicer fails before producing any output. -/
theorem splicer_requires_three_fields :
    (∀ dict : SeriesDict,
        (∀ e ∈ dict, hasSubstr "ssp".data e.1 = true → 2 < (splitOnDot e.1).length) →
        ∃ out, splicer dict dict = .ok out) ∧
      splicer [("a.ssp5".data, ([] : Series))] [("a.ssp5".data, ([] : Series))] =
        .error "IndexError" := by
  constructor
  · intro dict hwf
    exact ⟨_, splicer_eq_filterMap dict dict hwf⟩
  · rfl

theorem splicer_requires_three_fields_witness :
    ∃ out, splicer [("a.b.mA.ssp1".data, ([(0, 1)] : Series))]
        [("a.b.mA.ssp1".data, ([(0, 1)] : Series))] = .ok out :=
  splicer_requires_three_fields.1 _ (by decide)

end CMIP6
